import Mathlib

/-!
Verification of the parking-lot vehicle tracking and plate-consolidation
pipeline: a shallow embedding of `src/util.py`, `src/main.py` and
`src/api/core/camera_manager.py`, together with theorems settling the
specification claims.  Confidence scores and image coordinates are modelled
as rationals, OCR / detector / tracker outputs as oracle inputs per frame.
-/

namespace ParkingLot

set_option allowUnsafeReducibility true

attribute [local semireducible] Rat.add Rat.mul Rat.sub Rat.inv Rat.ofScientific

/-! ## util.py — character maps and plate formats -/

/-- `DICT_CHAR_TO_INT` from util.py: letter-like glyphs mapped to digits. -/
def dictCharToInt (c : Char) : Option Char :=
  if c = 'O' then some '0' else if c = 'Q' then some '0' else if c = 'D' then some '0'
  else if c = 'I' then some '1' else if c = 'L' then some '1' else if c = 'B' then some '8'
  else if c = 'S' then some '5' else if c = 'G' then some '6' else if c = 'Z' then some '2'
  else none

/-- `DICT_INT_TO_CHAR` from util.py: digit-like glyphs mapped to letters. -/
def dictIntToChar (c : Char) : Option Char :=
  if c = '0' then some 'O' else if c = '1' then some 'I' else if c = '2' then some 'Z'
  else if c = '3' then some 'B' else if c = '4' then some 'A' else if c = '5' then some 'S'
  else if c = '6' then some 'G' else if c = '8' then some 'B'
  else none

def isUpperLetter (c : Char) : Bool := decide ('A' ≤ c) && decide (c ≤ 'Z')

def isDigitChar (c : Char) : Bool := decide ('0' ≤ c) && decide (c ≤ '9')

/-- The positional glyph substitution of `format_license`: the first three
positions map digit-like glyphs to letters, positions 3–5 map letter-like
glyphs to digits. -/
def formatMapChar (i : ℕ) (c : Char) : Char :=
  if i < 3 then (dictIntToChar c).getD c
  else if i < 6 then (dictCharToInt c).getD c
  else c

def mapWithPos (i : ℕ) : List Char → List Char
  | [] => []
  | c :: cs => formatMapChar i c :: mapWithPos (i + 1) cs

/-- `format_license` from util.py: uppercase, strip separators, then apply
the positional glyph substitution. -/
def formatLicense (text : String) : String :=
  let cs := (text.toList.map Char.toUpper).filter
    (fun c => c ≠ ' ' && c ≠ '-' && c ≠ '.' && c ≠ '·')
  String.mk (mapWithPos 0 cs)

def allMatch : List (Char → Bool) → List Char → Bool
  | [], [] => true
  | p :: ps, c :: cs => p c && allMatch ps cs
  | _, _ => false

/-- `license_complies_format` from util.py: the five `PLATE_PATTERNS`
regular expressions, expressed as per-position character classes. -/
def licenseCompliesFormat (text : String) : Bool :=
  let cs := text.toList
  allMatch [isUpperLetter, isUpperLetter, isUpperLetter, isDigitChar, isDigitChar, isDigitChar] cs
  || allMatch [isUpperLetter, isUpperLetter, isUpperLetter, isDigitChar, isDigitChar, isUpperLetter] cs
  || allMatch [isDigitChar, isDigitChar, isDigitChar, isUpperLetter, isUpperLetter, isUpperLetter] cs
  || allMatch [isUpperLetter, isUpperLetter, isDigitChar, isDigitChar, isDigitChar, isDigitChar] cs
  || allMatch [isUpperLetter, isUpperLetter, isUpperLetter, isDigitChar, isDigitChar] cs

/-- Drop characters equal to the previous kept character `a`, keeping the
rest with their own anchor. -/
def collapseFrom (a : Char) : List Char → List Char
  | [] => []
  | b :: rest => if b = a then collapseFrom a rest else b :: collapseFrom b rest

/-- Collapse every run of a repeated character to a single occurrence,
as the substitution `re.sub(r'(.)\1+', r'\1', text)` does. -/
def collapseRuns : List Char → List Char
  | [] => []
  | a :: rest => a :: collapseFrom a rest

/-- `extra_clean_license` from util.py: uppercase, keep alphanumerics,
collapse repeated-character runs, then `format_license`. -/
def extraCleanLicense (text : String) : String :=
  let up := text.toList.map Char.toUpper
  let kept := up.filter (fun c => isUpperLetter c || isDigitChar c)
  formatLicense (String.mk (collapseRuns kept))

/-! ## util.py — OCR reading (`read_license_plate`) -/

/-- Oracle for one plate sub-region crop handed to `read_license_plate`:
whether the crop is empty, and the `(text, score)` detections EasyOCR
returns on the raw crop (`det1`) and on the preprocessed crop (`det2`).
A reader exception is the empty detection list. -/
structure LicenseCrop where
  isEmpty : Bool
  det1 : List (String × ℚ)
  det2 : List (String × ℚ)

/-- One pass of the detection loop in `read_license_plate`: skip cleaned
texts shorter than `MIN_PLATE_LEN`, return the first format-compliant
reading whose score exceeds `thr`. -/
def scanDetections (thr : ℚ) : List (String × ℚ) → Option (String × ℚ)
  | [] => none
  | (text, score) :: rest =>
    let clean := extraCleanLicense text
    if clean.length < 3 then scanDetections thr rest
    else if licenseCompliesFormat clean && decide (score > thr) then some (clean, score)
    else scanDetections thr rest

/-- `read_license_plate` from util.py.  The Python `(None, 0.0)` result is
`none`; a successful read carries the cleaned text and its score
(attempt 2 scales the score by 0.95). -/
def readLicensePlate (crop : LicenseCrop) : Option (String × ℚ) :=
  if crop.isEmpty then none
  else
    match scanDetections (45/100) crop.det1 with
    | some r => some r
    | none =>
      match scanDetections (40/100) crop.det2 with
      | some (t, s) => some (t, s * (95/100))
      | none => none

/-! ## util.py — similarity clustering (`consolidar_buffer`) -/

/-- Longest-common-subsequence length with an explicit fuel argument
(the fuel only needs to dominate the total length). -/
def lcsAux : ℕ → List Char → List Char → ℕ
  | 0, _, _ => 0
  | _ + 1, [], _ => 0
  | _ + 1, _ :: _, [] => 0
  | fuel + 1, a :: as, b :: bs =>
    if a = b then 1 + lcsAux fuel as bs
    else max (lcsAux fuel (a :: as) bs) (lcsAux fuel as (b :: bs))

/-- Length of a longest common subsequence, the match count underlying
rapidfuzz's indel-based `fuzz.ratio`. -/
def lcsLen (l₁ l₂ : List Char) : ℕ := lcsAux (l₁.length + l₂.length) l₁ l₂

/-- `fuzz.ratio` from rapidfuzz on a 0–100 scale:
`100 · (1 − indel_distance/(|s₁|+|s₂|)) = 200 · lcs/(|s₁|+|s₂|)`. -/
def fuzzRatio (s₁ s₂ : String) : ℚ :=
  if s₁.length + s₂.length = 0 then 100
  else (200 * lcsLen s₁.toList s₂.toList : ℚ) / (s₁.length + s₂.length)

/-- Python `max(·, key=·)`: fold keeping the current best, replacing it
only when the comparator says the new element is strictly greater. -/
def pyMaxByB (gt : α → α → Bool) : α → List α → α
  | best, [] => best
  | best, x :: xs => pyMaxByB gt (if gt x best then x else best) xs

/-- The representative of a cluster is its first member's text. -/
def clusterRep (c : List (String × ℚ)) : String := (c.headD ("", 0)).1

/-- Inner loop of the greedy clustering: append the reading to the first
cluster whose representative has `fuzz.ratio > 88`, else report failure. -/
def addToFirstMatch (p : String × ℚ) : List (List (String × ℚ)) →
    Option (List (List (String × ℚ)))
  | [] => none
  | c :: cs =>
    if fuzzRatio p.1 (clusterRep c) > 88 then some ((c ++ [p]) :: cs)
    else
      match addToFirstMatch p cs with
      | some cs₂ => some (c :: cs₂)
      | none => none

def insertReading (clusters : List (List (String × ℚ))) (p : String × ℚ) :
    List (List (String × ℚ)) :=
  match addToFirstMatch p clusters with
  | some cs => cs
  | none => clusters ++ [[p]]

/-- The greedy clustering pass of `consolidar_buffer`. -/
def buildClusters (l : List (String × ℚ)) : List (List (String × ℚ)) :=
  l.foldl insertReading []

/-- Cluster score: `sum(confidences) + 0.2 × cluster size`. -/
def clusterScore (c : List (String × ℚ)) : ℚ :=
  (c.map Prod.snd).sum + c.length * (2/10)

def clusterGt (c d : List (String × ℚ)) : Bool :=
  decide (clusterScore d < clusterScore c)

/-- Occurrence count of an exact string, as `Counter` tallies it. -/
def countOcc (t : String) (l : List String) : ℕ := (l.filter (fun u => u = t)).length

/-- Distinct elements in first-occurrence order (the `Counter` key order). -/
def firstDedup : List String → List String
  | [] => []
  | t :: ts => t :: (firstDedup ts).filter (fun u => u ≠ t)

/-- Python tuple comparison `(count, text) > (count, text)`: lexicographic,
with strings compared by code point. -/
def itemGt (p q : ℕ × String) : Bool :=
  decide (q.1 < p.1) || (decide (p.1 = q.1) && decide (q.2 < p.2))

/-- The normalization pass of `consolidar_buffer`: drop empty or short
original texts, then `format_license` each survivor. -/
def normalizedOf (buffer : List (String × ℚ)) : List (String × ℚ) :=
  (buffer.filter (fun p => p.1 ≠ "" && decide (3 ≤ p.1.length))).map
    (fun p => (formatLicense p.1, p.2))

/-- `consolidar_buffer` from util.py. -/
def consolidarBuffer (buffer : List (String × ℚ)) : Option (String × ℚ) :=
  match buffer with
  | [] => none
  | _ :: _ =>
    match normalizedOf buffer with
    | [] => none
    | _ :: _ =>
      match buildClusters (normalizedOf buffer) with
      | [] => none
      | c :: cs =>
        let bestCluster := pyMaxByB clusterGt c cs
        let texts := bestCluster.map Prod.fst
        match (firstDedup texts).map (fun t => (countOcc t texts, t)) with
        | [] => none
        | i :: is =>
          let bestText := (pyMaxByB itemGt i is).2
          let scores := (bestCluster.filter (fun p => p.1 = bestText)).map Prod.snd
          let bestScore := scores.sum / scores.length
          if countOcc bestText texts ≥ 3 ∧ bestScore > 6/10 then some (bestText, bestScore)
          else some (bestText, bestScore)

/-! ## util.py — closest vehicle and direction -/

/-- A SORT track row `(x1, y1, x2, y2, id)`. -/
abbrev Track := ℚ × ℚ × ℚ × ℚ × ℕ

/-- Loop of `seleccionar_mas_cercano`: keep the track of strictly largest
positive area, carrying the area along. -/
def seleccionarLoop : ℚ → Option (ℚ × ℚ × ℚ × ℚ × ℕ × ℚ) → List Track →
    Option (ℚ × ℚ × ℚ × ℚ × ℕ × ℚ)
  | _, best, [] => best
  | maxArea, best, (x₁, y₁, x₂, y₂, id) :: ts =>
    let area := (x₂ - x₁) * (y₂ - y₁)
    if area > maxArea then seleccionarLoop area (some (x₁, y₁, x₂, y₂, id, area)) ts
    else seleccionarLoop maxArea best ts

/-- `seleccionar_mas_cercano` from util.py. -/
def seleccionarMasCercano (tracks : List Track) : Option (ℚ × ℚ × ℚ × ℚ × ℕ × ℚ) :=
  seleccionarLoop 0 none tracks

/-- A motion sample `(frame index, bbox area, vertical center, timestamp)`
as `infer_direction_from_history` unpacks it. -/
abbrev MotionSample := ℕ × ℚ × ℚ × ℚ

/-- `infer_direction_from_history` from util.py. -/
def inferDirectionFromHistory (history : List MotionSample) (sign : ℚ)
    (minSamples : ℕ) (motionThresholdPx : ℚ) : String :=
  if history.isEmpty ∨ history.length < minSamples then "indeterminado"
  else
    let first := history.headD (0, 0, 0, 0)
    let last := history.getLastD (0, 0, 0, 0)
    let areaFirst := first.2.1
    let cyFirst := first.2.2.1
    let areaLast := last.2.1
    let cyLast := last.2.2.1
    let dy := (cyLast - cyFirst) * sign
    let darea := areaLast - areaFirst
    if |dy| < motionThresholdPx ∧ |darea| < 1 then "indeterminado"
    else if dy < 0 ∧ darea > -1 then "entrada"
    else if dy > 0 ∧ darea < 1 then "salida"
    else if darea > 500 then "entrada"
    else if darea < -500 then "salida"
    else "indeterminado"

/-! ## main.py — per-camera pipeline state machine

The per-frame body of `main`'s `while` loop, acting on the module-level
state (`vehiculo_activo_id`, `vehiculo_estado`, `movement_history`,
`lecturas_ocr`).  Detector, tracker and OCR outputs arrive as per-frame
oracle inputs; database/video side effects appear in the step result. -/

/-- Python `int(·)` on a float: truncation toward zero. -/
def pyInt (q : ℚ) : ℤ := Int.tdiv q.num q.den

/-- Lookup in a Python dict modelled as an insertion-ordered list. -/
def dictGet (d : List (ℕ × α)) (k : ℕ) : Option α :=
  match d with
  | [] => none
  | (k₂, v) :: rest => if k₂ = k then some v else dictGet rest k

/-- Lookup with a default, as `defaultdict` reads behave. -/
def dictGetD (d : List (ℕ × α)) (k : ℕ) (dflt : α) : α := (dictGet d k).getD dflt

/-- Dict assignment: update in place, else append a new key. -/
def dictSet (d : List (ℕ × α)) (k : ℕ) (v : α) : List (ℕ × α) :=
  match d with
  | [] => [(k, v)]
  | (k₂, v₂) :: rest => if k₂ = k then (k, v) :: rest else (k₂, v₂) :: dictSet rest k v

/-- `dict.pop(k, None)`: drop the key if present. -/
def dictPop (d : List (ℕ × α)) (k : ℕ) : List (ℕ × α) := d.filter (fun p => p.1 ≠ k)

/-- One entry of `vehiculo_estado`. -/
structure VehRec where
  bbox : ℚ × ℚ × ℚ × ℚ
  tipo : String
  frameInicial : ℕ
deriving DecidableEq

/-- The module-level mutable state of main.py, plus the loop's frame counter. -/
structure PipelineState where
  frameNmr : ℕ
  vehiculoActivoId : Option ℕ
  vehiculoEstado : List (ℕ × VehRec)
  movementHistory : List (ℕ × List MotionSample)
  lecturasOcr : List (ℕ × List (String × ℚ × ℕ))
deriving DecidableEq

def initialState : PipelineState := ⟨0, none, [], [], []⟩

/-- Per-frame oracle input: frame dimensions, the tracker's rows for this
frame, one OCR oracle per plate box the plate detector finds on the crop,
and the wall-clock timestamp string. -/
structure FrameInput where
  w : ℕ
  h : ℕ
  tracks : List Track
  plates : List LicenseCrop
  hora : String

/-- One row of the `registros` table. -/
structure Registro where
  tipoVehiculo : String
  placaFinal : String
  horaEntrada : String
  direccion : String
  urlImagen : String
  idSortOriginal : ℕ
  framesHastaPlaca : ℕ
deriving DecidableEq

/-- What one loop iteration produces besides the new state: at most one
database row, and whether a frame was written to the output video. -/
structure StepResult where
  state : PipelineState
  record : Option Registro
  frameWritten : Bool
deriving DecidableEq

/-- The new-vehicle selection branch: when no vehicle is active and the
tracker reports one, the largest-area track becomes active and its state
and OCR buffer are initialized. -/
def selectVehicle (s : PipelineState) (best : Option (ℚ × ℚ × ℚ × ℚ × ℕ × ℚ)) :
    PipelineState :=
  match s.vehiculoActivoId, best with
  | none, some (x₁, y₁, x₂, y₂, id, _) =>
    { s with
      vehiculoActivoId := some id
      vehiculoEstado := dictSet s.vehiculoEstado id ⟨(x₁, y₁, x₂, y₂), "desconocido", s.frameNmr⟩
      lecturasOcr := dictSet s.lecturasOcr id [] }
  | _, _ => s

/-- The bbox validation of main.py line 127: out of frame bounds or
non-positive extent. -/
def bboxInvalida (rec : VehRec) (w h : ℕ) : Bool :=
  let tx₁ := pyInt rec.bbox.1
  let ty₁ := pyInt rec.bbox.2.1
  let tx₂ := pyInt rec.bbox.2.2.1
  let ty₂ := pyInt rec.bbox.2.2.2
  decide (tx₁ < 0) || decide (ty₁ < 0) || decide ((w : ℤ) < tx₂) || decide ((h : ℤ) < ty₂)
    || decide (tx₂ ≤ tx₁) || decide (ty₂ ≤ ty₁)

/-- `car_crop.size` for the validated bbox. -/
def cropSize (rec : VehRec) : ℕ :=
  ((pyInt rec.bbox.2.2.1 - pyInt rec.bbox.1).toNat)
    * ((pyInt rec.bbox.2.2.2 - pyInt rec.bbox.2.1).toNat)

/-- The plate loop of main.py lines 140–148: each plate box's crop goes
through `read_license_plate`; plausible readings are kept. -/
def collectReadings : List LicenseCrop → List (String × ℚ)
  | [] => []
  | p :: ps =>
    match readLicensePlate p with
    | some (t, c) =>
      if t ≠ "" ∧ 3 ≤ t.length then (t, c) :: collectReadings ps
      else collectReadings ps
    | none => collectReadings ps

/-- The OCR buffer of the active vehicle after this frame's plate loop. -/
def lecturasDespues (s₁ : PipelineState) (inp : FrameInput) (id : ℕ) :
    List (String × ℚ × ℕ) :=
  dictGetD s₁.lecturasOcr id []
    ++ (collectReadings inp.plates).map (fun p => (p.1, p.2, s₁.frameNmr))

/-- The active-vehicle part of the loop body (main.py lines 121–184),
already knowing the active id's state record. -/
def processActive (s₁ : PipelineState) (inp : FrameInput) (id : ℕ) (rec : VehRec) :
    StepResult :=
  if bboxInvalida rec inp.w inp.h then ⟨s₁, none, false⟩
  else if cropSize rec = 0 then ⟨s₁, none, false⟩
  else
    let lect := lecturasDespues s₁ inp id
    let s₂ := { s₁ with lecturasOcr := dictSet s₁.lecturasOcr id lect }
    if 7 ≤ lect.length then
      let lecturasValidas := lect.map (fun r => (r.1, r.2.1))
      let direction := inferDirectionFromHistory (dictGetD s₂.movementHistory id []) 1 6 10
      match consolidarBuffer lecturasValidas with
      | some (bestPlaca, bestConf) =>
        if bestPlaca ≠ "" ∧ licenseCompliesFormat bestPlaca ∧ (1/2 : ℚ) ≤ bestConf then
          let framesUsados := s₂.frameNmr - rec.frameInicial
          let filepath := "detecciones_unicas/" ++ bestPlaca ++ "_" ++ toString id
            ++ "_" ++ toString s₂.frameNmr ++ ".jpg"
          let registro : Registro :=
            ⟨"car", bestPlaca, inp.hora, direction, filepath, id, framesUsados⟩
          ⟨{ s₂ with
              vehiculoActivoId := none
              vehiculoEstado := dictPop s₂.vehiculoEstado id
              movementHistory := dictPop s₂.movementHistory id
              lecturasOcr := dictPop s₂.lecturasOcr id },
            some registro, true⟩
        else ⟨s₂, none, true⟩
      | none => ⟨s₂, none, true⟩
    else ⟨s₂, none, true⟩

/-- One iteration of main.py's `while` loop after a successful frame read:
increment the frame counter, select a vehicle if none is active, process
the active vehicle, draw and write the output frame (skipped entirely via
`continue` when the active bbox fails validation). -/
def step (s₀ : PipelineState) (inp : FrameInput) : StepResult :=
  let s := { s₀ with frameNmr := s₀.frameNmr + 1 }
  let s₁ := selectVehicle s (seleccionarMasCercano inp.tracks)
  match s₁.vehiculoActivoId with
  | none => ⟨s₁, none, true⟩
  | some id =>
    match dictGet s₁.vehiculoEstado id with
    | none => ⟨s₁, none, true⟩
    | some rec => processActive s₁ inp id rec

/-- Whole-run composition of steps from a starting state. -/
def run (s : PipelineState) : List FrameInput → PipelineState
  | [] => s
  | inp :: rest => run (step s inp).state rest

/-! ## api/core/camera_manager.py — CameraManager

Camera ids and websocket handles are opaque naturals; `active_tasks` is
its key list (the task values are irrelevant to the claims), `listeners`
maps a camera to its subscriber set, kept as an insertion-ordered
duplicate-free list. -/

def MAX_LISTENERS_PER_CAMERA : ℕ := 50

def MAX_ACTIVE_CAMERAS : ℕ := 20

structure CameraManager where
  activeTasks : List ℕ
  listeners : List (ℕ × List ℕ)
  stopping : List ℕ
deriving DecidableEq

/-- Python `set.add`: insert if absent. -/
def setAdd (l : List ℕ) (x : ℕ) : List ℕ := if x ∈ l then l else l ++ [x]

def listenersOf (m : CameraManager) (camId : ℕ) : List ℕ :=
  dictGetD m.listeners camId []

/-- `CameraManager.start_camera`: reject at the active-camera ceiling,
otherwise start a loop task for the camera if none runs (idempotent). -/
def startCamera (m : CameraManager) (camId : ℕ) : Except String CameraManager :=
  if MAX_ACTIVE_CAMERAS ≤ m.activeTasks.length then
    .error "Máximo de cámaras activas alcanzado"
  else if camId ∈ m.activeTasks then .ok m
  else .ok { m with activeTasks := m.activeTasks ++ [camId] }

/-- `CameraManager.register_listener`: reject at the per-camera listener
ceiling, otherwise add the websocket to the camera's set. -/
def registerListener (m : CameraManager) (camId ws : ℕ) : Except String CameraManager :=
  let listenerCount := (listenersOf m camId).length
  if MAX_LISTENERS_PER_CAMERA ≤ listenerCount then
    .error "Máximo de listeners por cámara alcanzado"
  else .ok { m with listeners := dictSet m.listeners camId (setAdd (listenersOf m camId) ws) }

/-- `CameraManager.unregister_listener`: remove the websocket from the
camera's set when present. -/
def unregisterListener (m : CameraManager) (camId ws : ℕ) : CameraManager :=
  match dictGet m.listeners camId with
  | some s =>
    if ws ∈ s then
      { m with listeners := dictSet m.listeners camId (s.filter (fun x => x ≠ ws)) }
    else m
  | none => m

/-- The send loop of `_process_loop`'s broadcast section: try every
listener of the snapshot; a successful `send_bytes` delivers the frame,
a raising one puts the websocket on the dead list.  Returns
`(delivered, dead_websockets)` in iteration order. -/
def sendLoop (sendOk : ℕ → Bool) : List ℕ → List ℕ × List ℕ
  | [] => ([], [])
  | ws :: rest =>
    let r := sendLoop sendOk rest
    if sendOk ws then (ws :: r.1, r.2) else (r.1, ws :: r.2)

/-- The broadcast section of `_process_loop` for one encoded frame:
snapshot the camera's listeners, send to each, then unregister every dead
websocket.  Returns the manager afterwards and who received the frame. -/
def broadcast (m : CameraManager) (camId : ℕ) (sendOk : ℕ → Bool) :
    CameraManager × List ℕ :=
  let snapshot := dictGetD m.listeners camId []
  let r := sendLoop sendOk snapshot
  (r.2.foldl (fun mm ws => unregisterListener mm camId ws) m, r.1)

/-! ## Dictionary lemmas -/

theorem dictGet_set_self (d : List (ℕ × α)) (k : ℕ) (v : α) :
    dictGet (dictSet d k v) k = some v := by
  induction d with
  | nil => simp [dictSet, dictGet]
  | cons p rest ih =>
    by_cases h : p.1 = k
    · simp [dictSet, dictGet, h]
    · simp [dictSet, dictGet, h, ih]

theorem dictGet_set_ne (d : List (ℕ × α)) (k k₂ : ℕ) (v : α) (h : k₂ ≠ k) :
    dictGet (dictSet d k v) k₂ = dictGet d k₂ := by
  induction d with
  | nil => simp [dictSet, dictGet, Ne.symm h]
  | cons p rest ih =>
    by_cases hp : p.1 = k
    · simp [dictSet, dictGet, hp, Ne.symm h, h]
    · by_cases hq : p.1 = k₂ <;> simp [dictSet, dictGet, hp, hq, h, ih]

theorem dictPop_cons (p : ℕ × α) (rest : List (ℕ × α)) (k : ℕ) :
    dictPop (p :: rest) k =
      if p.1 = k then dictPop rest k else p :: dictPop rest k := by
  by_cases h : p.1 = k <;> simp [dictPop, List.filter_cons, h]

theorem dictGet_pop_self (d : List (ℕ × α)) (k : ℕ) :
    dictGet (dictPop d k) k = none := by
  induction d with
  | nil => rfl
  | cons p rest ih =>
    rw [dictPop_cons]
    by_cases h : p.1 = k
    · simpa [h] using ih
    · simpa [dictGet, h] using ih

theorem dictGet_pop_ne (d : List (ℕ × α)) (k k₂ : ℕ) (h : k₂ ≠ k) :
    dictGet (dictPop d k) k₂ = dictGet d k₂ := by
  induction d with
  | nil => rfl
  | cons p rest ih =>
    rw [dictPop_cons]
    by_cases hp : p.1 = k
    · simp [dictGet, hp, Ne.symm h, h, ih]
    · by_cases hq : p.1 = k₂ <;> simp [dictGet, hp, hq, h, ih]

/-! ## Claim C7 — DirectionClassifier -/

/-- C7: any motion history with fewer than 6 samples yields
"indeterminado"; a history of at least 6 samples with `sign = +1`, first
sample `(area 1000, center_y 300)` and last sample
`(area 1600, center_y 250)` yields "entrada" (`dy = -50`, `darea = 600`). -/
theorem C7_direction_classifier :
    (∀ (h : List MotionSample) (sign : ℚ), h.length < 6 →
      inferDirectionFromHistory h sign 6 10 = "indeterminado") ∧
    (∀ (h : List MotionSample) (f₁ : ℕ) (t₁ : ℚ) (fₙ : ℕ) (tₙ : ℚ), 6 ≤ h.length →
      h.head? = some (f₁, 1000, 300, t₁) → h.getLast? = some (fₙ, 1600, 250, tₙ) →
      inferDirectionFromHistory h 1 6 10 = "entrada") := by
  constructor
  · intro h sign hlen
    unfold inferDirectionFromHistory
    rw [if_pos (Or.inr hlen)]
  · intro h f₁ t₁ fₙ tₙ hlen hhead hlast
    unfold inferDirectionFromHistory
    have hne : ¬ (h.isEmpty = true ∨ h.length < 6) := by
      rcases h with _ | ⟨x, t⟩
      · simp at hlen
      · simp only [List.isEmpty_cons, Bool.false_eq_true, false_or, List.length_cons] at *
        omega
    rw [if_neg hne]
    have h1 : h.headD (0, 0, 0, 0) = (f₁, 1000, 300, t₁) := by
      rw [List.headD_eq_head?, hhead]; rfl
    have h2 : h.getLastD (0, 0, 0, 0) = (fₙ, 1600, 250, tₙ) := by
      rw [List.getLastD_eq_getLast?, hlast]; rfl
    simp only [h1, h2]
    norm_num

theorem C7_witness :
    inferDirectionFromHistory [(0, 1000, 300, 0), (1, 1000, 300, 0)] 1 6 10
      = "indeterminado" ∧
    inferDirectionFromHistory
      [(0, 1000, 300, 0), (1, 1100, 290, 0), (2, 1200, 280, 0), (3, 1300, 270, 0),
        (4, 1400, 260, 0), (5, 1600, 250, 0)] 1 6 10 = "entrada" :=
  ⟨C7_direction_classifier.1 _ 1 (by decide),
   C7_direction_classifier.2 _ 0 0 5 0 (by decide) (by decide) (by decide)⟩

/-! ## Claim C6 — capacity ceilings -/

/-- C6: `start_camera` raises once 20 camera loops run and succeeds below
that ceiling; `register_listener` raises once a camera has 50 subscribers
and succeeds (adding the subscriber) below that ceiling. -/
theorem C6_capacity_limits :
    (∀ (m : CameraManager) (c : ℕ), 20 ≤ m.activeTasks.length →
      ∃ e, startCamera m c = .error e) ∧
    (∀ (m : CameraManager) (c : ℕ), m.activeTasks.length < 20 →
      ∃ m₂, startCamera m c = .ok m₂) ∧
    (∀ (m : CameraManager) (c w : ℕ), 50 ≤ (listenersOf m c).length →
      ∃ e, registerListener m c w = .error e) ∧
    (∀ (m : CameraManager) (c w : ℕ), (listenersOf m c).length < 50 →
      ∃ m₂, registerListener m c w = .ok m₂ ∧ w ∈ listenersOf m₂ c) := by
  refine ⟨fun m c h => ?_, fun m c h => ?_, fun m c w h => ?_, fun m c w h => ?_⟩
  · refine ⟨"Máximo de cámaras activas alcanzado", ?_⟩
    simp only [startCamera, MAX_ACTIVE_CAMERAS]
    rw [if_pos h]
  · simp only [startCamera, MAX_ACTIVE_CAMERAS]
    rw [if_neg (by omega)]
    by_cases hm : c ∈ m.activeTasks
    · exact ⟨m, by rw [if_pos hm]⟩
    · exact ⟨_, by rw [if_neg hm]⟩
  · refine ⟨"Máximo de listeners por cámara alcanzado", ?_⟩
    simp only [registerListener, MAX_LISTENERS_PER_CAMERA]
    rw [if_pos h]
  · refine ⟨{ m with listeners := dictSet m.listeners c (setAdd (listenersOf m c) w) }, ?_, ?_⟩
    · simp only [registerListener, MAX_LISTENERS_PER_CAMERA]
      rw [if_neg (by omega)]
    · show w ∈ dictGetD (dictSet m.listeners c (setAdd (listenersOf m c) w)) c []
      simp only [dictGetD, dictGet_set_self, Option.getD_some]
      by_cases hw : w ∈ listenersOf m c <;> simp [setAdd, hw]

theorem C6_witness :
    (∃ e, startCamera ⟨List.range 20, [], []⟩ 99 = .error e) ∧
    (∃ m₂, startCamera ⟨[], [], []⟩ 1 = .ok m₂) ∧
    (∃ e, registerListener ⟨[], [(3, List.range 50)], []⟩ 3 7 = .error e) ∧
    (∃ m₂, registerListener ⟨[], [], []⟩ 3 7 = .ok m₂ ∧ 7 ∈ listenersOf m₂ 3) :=
  ⟨C6_capacity_limits.1 _ 99 (by simp),
   C6_capacity_limits.2.1 _ 1 (by simp),
   C6_capacity_limits.2.2.1 _ 3 7 (by simp [listenersOf, dictGetD, dictGet]),
   C6_capacity_limits.2.2.2 _ 3 7 (by simp [listenersOf, dictGetD, dictGet])⟩

/-! ## Claim C2 — the consolidation example -/

def exampleBuffer : List (String × ℚ) :=
  [("ABC123", 9/10), ("ABC128", 6/10), ("ABC123", 85/100), ("XYZ999", 95/100)]

/-- C2 counterexample: the similarity of "ABC128" to the representative
"ABC123" is 250/3 ≈ 83.3, below the threshold 88, so the three "ABC12x"
readings do NOT form one cluster — the example buffer builds three
clusters, not two. -/
theorem C2_counterexample :
    fuzzRatio "ABC123" "ABC128" < 88 ∧
    (buildClusters (normalizedOf exampleBuffer)).length = 3 := by
  constructor
  · decide
  · decide

/-- C2 amended: "ABC128" falls below the similarity threshold and forms
its own cluster; the two exact "ABC123" readings form the winning cluster
(score 2.15 against 0.8 and 1.15), and the result is the majority string
"ABC123" with mean confidence 0.875. -/
theorem C2_consolidation_example :
    buildClusters (normalizedOf exampleBuffer) =
      [[("ABC123", 9/10), ("ABC123", 85/100)], [("ABC128", 6/10)], [("XYZ999", 95/100)]] ∧
    clusterScore [("ABC123", 9/10), ("ABC123", 85/100)] = 43/20 ∧
    clusterScore [("ABC128", 6/10)] = 4/5 ∧
    clusterScore [("XYZ999", 95/100)] = 23/20 ∧
    consolidarBuffer exampleBuffer = some ("ABC123", 875/1000) := by
  refine ⟨by decide, by decide, by decide, by decide, by decide⟩

/-! ## Claim C9 — dead-subscriber eviction -/

theorem sendLoop_eq (sendOk : ℕ → Bool) (l : List ℕ) :
    sendLoop sendOk l =
      (l.filter (fun x => sendOk x), l.filter (fun x => !sendOk x)) := by
  induction l with
  | nil => rfl
  | cons ws rest ih =>
    by_cases h : sendOk ws = true <;> simp [sendLoop, List.filter_cons, h, ih]

theorem listenersOf_unregister (m : CameraManager) (camId ws : ℕ) :
    listenersOf (unregisterListener m camId ws) camId =
      (listenersOf m camId).filter (fun x => x ≠ ws) := by
  unfold unregisterListener
  cases hg : dictGet m.listeners camId with
  | none => simp [listenersOf, dictGetD, hg]
  | some s =>
    by_cases hw : ws ∈ s
    · simp only [hw, if_pos]
      simp [listenersOf, dictGetD, dictGet_set_self, hg]
    · simp only [hw, if_neg, ite_false]
      simp only [listenersOf, dictGetD, hg, Option.getD_some]
      refine (List.filter_eq_self.mpr ?_).symm
      intro x hx
      have hne : x ≠ ws := fun e => hw (e ▸ hx)
      simp [hne]

theorem mem_foldl_unreg (ds : List ℕ) (m : CameraManager) (camId ws : ℕ) :
    ws ∈ listenersOf (ds.foldl (fun mm w => unregisterListener mm camId w) m) camId ↔
      ws ∈ listenersOf m camId ∧ ws ∉ ds := by
  induction ds generalizing m with
  | nil => simp
  | cons d rest ih =>
    rw [List.foldl_cons, ih, listenersOf_unregister]
    simp only [List.mem_filter, decide_eq_true_eq, List.mem_cons]
    tauto

theorem broadcast_eq (m : CameraManager) (camId : ℕ) (sendOk : ℕ → Bool) :
    broadcast m camId sendOk =
      (((listenersOf m camId).filter (fun x => !sendOk x)).foldl
        (fun mm ws => unregisterListener mm camId ws) m,
       (listenersOf m camId).filter (fun x => sendOk x)) := by
  simp only [broadcast, listenersOf, sendLoop_eq]

/-- C9: broadcasting one frame delivers it to exactly the subscribers whose
send succeeds, removes every subscriber whose send fails from the camera's
set, keeps the successful ones, and an evicted subscriber receives nothing
from any later broadcast. -/
theorem C9_dead_subscriber_eviction :
    ∀ (m : CameraManager) (camId : ℕ) (sendOk : ℕ → Bool),
      (broadcast m camId sendOk).2 = (listenersOf m camId).filter (fun w => sendOk w) ∧
      (∀ ws ∈ listenersOf m camId, sendOk ws = false →
        ws ∉ listenersOf (broadcast m camId sendOk).1 camId) ∧
      (∀ ws ∈ listenersOf m camId, sendOk ws = true →
        ws ∈ listenersOf (broadcast m camId sendOk).1 camId) ∧
      (∀ (ws : ℕ) (sendOk₂ : ℕ → Bool),
        ws ∉ listenersOf (broadcast m camId sendOk).1 camId →
        ws ∉ (broadcast (broadcast m camId sendOk).1 camId sendOk₂).2) := by
  intro m camId sendOk
  have hb := broadcast_eq m camId sendOk
  refine ⟨by rw [hb], ?_, ?_, ?_⟩
  · intro ws hmem hfail
    rw [hb]
    simp only [mem_foldl_unreg, not_and, not_not]
    intro _
    simp [List.mem_filter, hmem, hfail]
  · intro ws hmem hok
    rw [hb]
    simp only [mem_foldl_unreg]
    exact ⟨hmem, by simp [List.mem_filter, hok]⟩
  · intro ws sendOk₂ hnot
    rw [broadcast_eq ((broadcast m camId sendOk).1) camId sendOk₂]
    intro hmem
    exact hnot (List.mem_filter.mp hmem).1

def bmCamera : CameraManager := ⟨[], [(1, [10, 11])], []⟩

def bOkSend : ℕ → Bool := fun w => w == 10

theorem C9_witness :
    (broadcast bmCamera 1 bOkSend).2 = (listenersOf bmCamera 1).filter (fun w => bOkSend w) ∧
    11 ∉ listenersOf (broadcast bmCamera 1 bOkSend).1 1 ∧
    10 ∈ listenersOf (broadcast bmCamera 1 bOkSend).1 1 :=
  ⟨(C9_dead_subscriber_eviction bmCamera 1 bOkSend).1,
   (C9_dead_subscriber_eviction bmCamera 1 bOkSend).2.1 11 (by decide) (by decide),
   (C9_dead_subscriber_eviction bmCamera 1 bOkSend).2.2.1 10 (by decide) (by decide)⟩

/-! ## Claim C10 — read_license_plate postcondition -/

theorem scanDetections_sound (thr : ℚ) (dets : List (String × ℚ)) (t : String) (c : ℚ)
    (h : scanDetections thr dets = some (t, c)) :
    3 ≤ t.length ∧ licenseCompliesFormat t = true ∧ thr < c := by
  induction dets with
  | nil => simp [scanDetections] at h
  | cons d rest ih =>
    rw [show scanDetections thr (d :: rest) =
        (if (extraCleanLicense d.1).length < 3 then scanDetections thr rest
         else if licenseCompliesFormat (extraCleanLicense d.1) && decide (d.2 > thr)
           then some (extraCleanLicense d.1, d.2)
         else scanDetections thr rest) from rfl] at h
    split at h
    · exact ih h
    · rename_i hlen
      split at h
      · rename_i hcond
        rw [Option.some.injEq, Prod.mk.injEq] at h
        obtain ⟨ht, hc⟩ := h
        subst ht
        subst hc
        rw [Bool.and_eq_true, decide_eq_true_eq] at hcond
        exact ⟨by omega, hcond.1, hcond.2⟩
      · exact ih h

theorem readLicensePlate_sound (crop : LicenseCrop) (t : String) (c : ℚ)
    (h : readLicensePlate crop = some (t, c)) :
    3 ≤ t.length ∧ licenseCompliesFormat t = true ∧ (38/100 : ℚ) < c := by
  unfold readLicensePlate at h
  split at h
  · exact absurd h (by simp)
  · split at h
    · rename_i r heq
      rw [Option.some.injEq] at h
      subst h
      obtain ⟨h1, h2, h3⟩ := scanDetections_sound _ _ _ _ heq
      exact ⟨h1, h2, by linarith⟩
    · split at h
      · rename_i t₂ s₂ heq
        rw [Option.some.injEq, Prod.mk.injEq] at h
        obtain ⟨ht, hc⟩ := h
        subst ht
        subst hc
        obtain ⟨h1, h2, h3⟩ := scanDetections_sound _ _ _ _ heq
        refine ⟨h1, h2, ?_⟩
        have : (40/100 : ℚ) * (95/100) < s₂ * (95/100) :=
          mul_lt_mul_of_pos_right h3 (by norm_num)
        linarith
      · exact absurd h (by simp)

theorem collectReadings_sound (plates : List LicenseCrop) (p : String × ℚ)
    (h : p ∈ collectReadings plates) :
    p.1 ≠ "" ∧ 3 ≤ p.1.length ∧ licenseCompliesFormat p.1 = true ∧ (38/100 : ℚ) < p.2 := by
  induction plates with
  | nil => simp [collectReadings] at h
  | cons cr rest ih =>
    rw [collectReadings] at h
    split at h
    · rename_i t₂ c₂ heq
      split at h
      · rename_i hcond
        rcases List.mem_cons.mp h with rfl | hm
        · obtain ⟨h1, h2, h3⟩ := readLicensePlate_sound _ _ _ heq
          exact ⟨hcond.1, h1, h2, h3⟩
        · exact ih hm
      · exact ih h
    · exact ih h

theorem selectVehicle_lect_mem (s : PipelineState) (b : Option (ℚ × ℚ × ℚ × ℚ × ℕ × ℚ))
    (id : ℕ) (r : String × ℚ × ℕ)
    (h : r ∈ dictGetD (selectVehicle s b).lecturasOcr id []) :
    r ∈ dictGetD s.lecturasOcr id [] := by
  rcases hs : s.vehiculoActivoId with _ | aid
  · rcases b with _ | ⟨x₁, y₁, x₂, y₂, nid, ar⟩
    · simpa [selectVehicle, hs] using h
    · simp only [selectVehicle, hs] at h
      by_cases hid : id = nid
      · subst hid
        simp [dictGetD, dictGet_set_self] at h
      · simp only [dictGetD, dictGet_set_ne _ _ _ _ hid] at h
        exact h
  · simpa [selectVehicle, hs] using h

theorem processActive_lect_mem (s₁ : PipelineState) (inp : FrameInput) (id₂ : ℕ)
    (rec : VehRec) (id : ℕ) (r : String × ℚ × ℕ)
    (h : r ∈ dictGetD (processActive s₁ inp id₂ rec).state.lecturasOcr id []) :
    r ∈ dictGetD s₁.lecturasOcr id [] ∨
      r ∈ (collectReadings inp.plates).map (fun p => (p.1, p.2, s₁.frameNmr)) := by
  simp only [processActive] at h
  split at h
  · exact Or.inl h
  · split at h
    · exact Or.inl h
    · by_cases hid : id = id₂
      · subst hid
        have hset : ∀ hm : r ∈ dictGetD
            (dictSet s₁.lecturasOcr id (lecturasDespues s₁ inp id)) id [],
            r ∈ dictGetD s₁.lecturasOcr id [] ∨
              r ∈ (collectReadings inp.plates).map (fun p => (p.1, p.2, s₁.frameNmr)) := by
          intro hm
          simp only [dictGetD, dictGet_set_self, Option.getD_some, lecturasDespues] at hm
          exact List.mem_append.mp hm
        split at h
        · split at h
          · split at h
            · simp [dictGetD, dictGet_pop_self] at h
            · exact hset h
          · exact hset h
        · exact hset h
      · have hset : ∀ hm : r ∈ dictGetD
            (dictSet s₁.lecturasOcr id₂ (lecturasDespues s₁ inp id₂)) id [],
            r ∈ dictGetD s₁.lecturasOcr id [] := by
          intro hm
          simp only [dictGetD, dictGet_set_ne _ _ _ _ hid] at hm
          exact hm
        split at h
        · split at h
          · split at h
            · simp only [dictGetD, dictGet_pop_ne _ _ _ hid] at h
              exact Or.inl (hset h)
            · exact Or.inl (hset h)
          · exact Or.inl (hset h)
        · exact Or.inl (hset h)

theorem step_lect_mem (s : PipelineState) (inp : FrameInput) (id : ℕ) (r : String × ℚ × ℕ)
    (h : r ∈ dictGetD (step s inp).state.lecturasOcr id []) :
    r ∈ dictGetD s.lecturasOcr id [] ∨
      (r.1 ≠ "" ∧ 3 ≤ r.1.length ∧ licenseCompliesFormat r.1 = true ∧
        (38/100 : ℚ) < r.2.1) := by
  simp only [step] at h
  split at h
  · exact Or.inl (selectVehicle_lect_mem { s with frameNmr := s.frameNmr + 1 } _ _ _ h)
  · split at h
    · exact Or.inl (selectVehicle_lect_mem { s with frameNmr := s.frameNmr + 1 } _ _ _ h)
    · rcases processActive_lect_mem _ _ _ _ _ _ h with h1 | h2
      · exact Or.inl (selectVehicle_lect_mem { s with frameNmr := s.frameNmr + 1 } _ _ _ h1)
      · rcases List.mem_map.mp h2 with ⟨p, hp, hpr⟩
        obtain ⟨h3, h4, h5, h6⟩ := collectReadings_sound _ _ hp
        refine Or.inr ?_
        rw [← hpr]
        exact ⟨h3, h4, h5, h6⟩

/-- C10: `read_license_plate` returns `none` or a reading whose text has
length at least 3 and passes `license_complies_format`, with score
strictly above 0.38; consequently every reading the pipeline step appends
to an OCR buffer is already format-compliant. -/
theorem C10_ocr_postcondition :
    (∀ (crop : LicenseCrop) (t : String) (c : ℚ), readLicensePlate crop = some (t, c) →
      3 ≤ t.length ∧ licenseCompliesFormat t = true ∧ (38/100 : ℚ) < c) ∧
    (∀ (s : PipelineState) (inp : FrameInput) (id : ℕ) (r : String × ℚ × ℕ),
      r ∈ dictGetD (step s inp).state.lecturasOcr id [] →
      r ∈ dictGetD s.lecturasOcr id [] ∨
        (3 ≤ r.1.length ∧ licenseCompliesFormat r.1 = true ∧ (38/100 : ℚ) < r.2.1)) :=
  ⟨fun crop t c h => readLicensePlate_sound crop t c h,
   fun s inp id r h =>
     (step_lect_mem s inp id r h).imp_right (fun hr => ⟨hr.2.1, hr.2.2.1, hr.2.2.2⟩)⟩

theorem C10_witness :
    3 ≤ "ABC123".length ∧ licenseCompliesFormat "ABC123" = true ∧ (38/100 : ℚ) < 9/10 :=
  C10_ocr_postcondition.1 ⟨false, [("ABC123", 9/10)], []⟩ "ABC123" (9/10) (by decide)

/-! ## Characterizations of the pipeline step -/

theorem selectVehicle_of_active (s : PipelineState) (b : Option (ℚ × ℚ × ℚ × ℚ × ℕ × ℚ))
    (id : ℕ) (hs : s.vehiculoActivoId = some id) : selectVehicle s b = s := by
  rcases b with _ | ⟨x₁, y₁, x₂, y₂, nid, ar⟩ <;> simp [selectVehicle, hs]

theorem selectVehicle_activo_some (s : PipelineState) (b : Option (ℚ × ℚ × ℚ × ℚ × ℕ × ℚ))
    (v : ℕ) (h : (selectVehicle s b).vehiculoActivoId = some v) :
    s.vehiculoActivoId = none ∨ s.vehiculoActivoId = some v := by
  rcases hs : s.vehiculoActivoId with _ | aid
  · exact Or.inl rfl
  · rw [selectVehicle_of_active s b aid hs] at h
    exact Or.inr (hs.symm.trans h)

theorem selectVehicle_movement (s : PipelineState) (b : Option (ℚ × ℚ × ℚ × ℚ × ℕ × ℚ)) :
    (selectVehicle s b).movementHistory = s.movementHistory := by
  rcases hs : s.vehiculoActivoId with _ | aid <;>
    rcases b with _ | ⟨x₁, y₁, x₂, y₂, nid, ar⟩ <;> simp [selectVehicle, hs]

/-- Complete case analysis of `processActive`: either the frame is skipped
by `continue` (invalid bbox or empty crop), or the OCR buffer is extended
without a record, or consolidation succeeds and the vehicle state is
cleared while a record is emitted. -/
theorem processActive_spec (s₁ : PipelineState) (inp : FrameInput) (id : ℕ) (rec : VehRec) :
    processActive s₁ inp id rec = ⟨s₁, none, false⟩ ∨
    processActive s₁ inp id rec =
      ⟨{ s₁ with lecturasOcr := dictSet s₁.lecturasOcr id (lecturasDespues s₁ inp id) },
        none, true⟩ ∨
    (∃ bp bc, consolidarBuffer ((lecturasDespues s₁ inp id).map (fun x => (x.1, x.2.1)))
        = some (bp, bc) ∧
      bp ≠ "" ∧ licenseCompliesFormat bp = true ∧ (1/2 : ℚ) ≤ bc ∧
      7 ≤ (lecturasDespues s₁ inp id).length ∧
      processActive s₁ inp id rec =
        ⟨⟨s₁.frameNmr, none, dictPop s₁.vehiculoEstado id, dictPop s₁.movementHistory id,
          dictPop (dictSet s₁.lecturasOcr id (lecturasDespues s₁ inp id)) id⟩,
          some ⟨"car", bp, inp.hora,
            inferDirectionFromHistory (dictGetD s₁.movementHistory id []) 1 6 10,
            "detecciones_unicas/" ++ bp ++ "_" ++ toString id ++ "_"
              ++ toString s₁.frameNmr ++ ".jpg",
            id, s₁.frameNmr - rec.frameInicial⟩, true⟩) := by
  simp only [processActive]
  split
  · exact Or.inl rfl
  · split
    · exact Or.inl rfl
    · split
      · rename_i h7
        split
        · rename_i bp bc heq
          split
          · rename_i hacc
            exact Or.inr (Or.inr ⟨bp, bc, heq, hacc.1, hacc.2.1, hacc.2.2, h7, rfl⟩)
          · exact Or.inr (Or.inl rfl)
        · exact Or.inr (Or.inl rfl)
      · exact Or.inr (Or.inl rfl)

theorem step_eq_of_active (s : PipelineState) (inp : FrameInput) (id : ℕ) (rec : VehRec)
    (hact : s.vehiculoActivoId = some id)
    (hrec : dictGet s.vehiculoEstado id = some rec) :
    step s inp = processActive { s with frameNmr := s.frameNmr + 1 } inp id rec := by
  simp only [step]
  rw [selectVehicle_of_active { s with frameNmr := s.frameNmr + 1 }
    (seleccionarMasCercano inp.tracks) id hact]
  simp only [hact, hrec]

/-- The single-focus invariant: either no vehicle is active and the state
dict is empty, or exactly the active vehicle has a state entry. -/
def singleFocusInv (s : PipelineState) : Prop :=
  (s.vehiculoActivoId = none ∧ s.vehiculoEstado = []) ∨
  (∃ id rec, s.vehiculoActivoId = some id ∧ s.vehiculoEstado = [(id, rec)])

theorem selectVehicle_inv (s : PipelineState) (b : Option (ℚ × ℚ × ℚ × ℚ × ℕ × ℚ))
    (h : singleFocusInv s) : singleFocusInv (selectVehicle s b) := by
  rcases h with ⟨h1, h2⟩ | ⟨id, rec, h1, h2⟩
  · rcases b with _ | ⟨x₁, y₁, x₂, y₂, nid, ar⟩
    · rw [show selectVehicle s none = s from by simp [selectVehicle, h1]]
      exact Or.inl ⟨h1, h2⟩
    · refine Or.inr ⟨nid, ⟨(x₁, y₁, x₂, y₂), "desconocido", s.frameNmr⟩, ?_, ?_⟩
      · simp [selectVehicle, h1]
      · simp [selectVehicle, h1, h2, dictSet]
  · rw [selectVehicle_of_active s b id h1]
    exact Or.inr ⟨id, rec, h1, h2⟩

theorem step_inv (s : PipelineState) (inp : FrameInput) (h : singleFocusInv s) :
    singleFocusInv (step s inp).state := by
  have h' : singleFocusInv { s with frameNmr := s.frameNmr + 1 } := h
  simp only [step]
  split
  · exact selectVehicle_inv _ _ h'
  · rename_i id hacts
    split
    · exact selectVehicle_inv _ _ h'
    · rename_i rec hrec
      have hinv1 := selectVehicle_inv { s with frameNmr := s.frameNmr + 1 }
        (seleccionarMasCercano inp.tracks) h'
      rcases processActive_spec (selectVehicle { s with frameNmr := s.frameNmr + 1 }
          (seleccionarMasCercano inp.tracks)) inp id rec with
        hpa | hpa | ⟨bp, bc, _, _, _, _, _, hpa⟩
      · rw [hpa]
        exact hinv1
      · rw [hpa]
        exact hinv1
      · rw [hpa]
        refine Or.inl ⟨rfl, ?_⟩
        rcases hinv1 with ⟨ha, he⟩ | ⟨id₀, rec₀, ha, he⟩
        · rw [ha] at hacts
          simp at hacts
        · have hid : id₀ = id := by
            rw [ha] at hacts
            exact Option.some.injEq _ _ ▸ hacts
          subst hid
          show dictPop (selectVehicle { s with frameNmr := s.frameNmr + 1 }
            (seleccionarMasCercano inp.tracks)).vehiculoEstado id₀ = []
          rw [he]
          simp [dictPop, List.filter]

theorem run_inv (inputs : List FrameInput) :
    ∀ s : PipelineState, singleFocusInv s → singleFocusInv (run s inputs) := by
  induction inputs with
  | nil => exact fun s h => h
  | cons i rest ih =>
    intro s h
    rw [run]
    exact ih _ (step_inv s i h)

theorem step_movement_spec (s : PipelineState) (inp : FrameInput) :
    (step s inp).state.movementHistory = s.movementHistory ∨
    ∃ id, (step s inp).state.movementHistory = dictPop s.movementHistory id := by
  simp only [step]
  split
  · exact Or.inl (selectVehicle_movement _ _)
  · rename_i id hacts
    split
    · exact Or.inl (selectVehicle_movement _ _)
    · rename_i rec hrec
      rcases processActive_spec (selectVehicle { s with frameNmr := s.frameNmr + 1 }
          (seleccionarMasCercano inp.tracks)) inp id rec with
        hpa | hpa | ⟨bp, bc, _, _, _, _, _, hpa⟩
      · rw [hpa]
        exact Or.inl (selectVehicle_movement _ _)
      · rw [hpa]
        exact Or.inl (selectVehicle_movement _ _)
      · rw [hpa]
        refine Or.inr ⟨id, ?_⟩
        show dictPop (selectVehicle { s with frameNmr := s.frameNmr + 1 }
          (seleccionarMasCercano inp.tracks)).movementHistory id = dictPop s.movementHistory id
        rw [selectVehicle_movement]

theorem run_movement_empty (inputs : List FrameInput) :
    ∀ s : PipelineState, s.movementHistory = [] → (run s inputs).movementHistory = [] := by
  induction inputs with
  | nil => exact fun s h => h
  | cons i rest ih =>
    intro s h
    rw [run]
    apply ih
    rcases step_movement_spec s i with h1 | ⟨id, h2⟩
    · rw [h1, h]
    · rw [h2, h]
      rfl

/-- What must have held whenever a step emits a database record: the plate
is non-empty and format-valid, it came out of `consolidar_buffer` on an
OCR buffer of length at least 7 with confidence at least 0.5, and the
direction was computed from the (never written) motion history. -/
theorem step_record_facts (s : PipelineState) (inp : FrameInput) (r : Registro) :
    (step s inp).record = some r →
    r.placaFinal ≠ "" ∧ licenseCompliesFormat r.placaFinal = true ∧
    (∃ lect c, 7 ≤ List.length lect ∧
      consolidarBuffer (lect.map (fun x : String × ℚ × ℕ => (x.1, x.2.1)))
        = some (r.placaFinal, c) ∧ (1/2 : ℚ) ≤ c) ∧
    (∃ id, r.direccion
      = inferDirectionFromHistory (dictGetD s.movementHistory id []) 1 6 10) := by
  simp only [step]
  split
  · intro h
    exact absurd h (by simp)
  · rename_i id hacts
    split
    · intro h
      exact absurd h (by simp)
    · rename_i rec hrec
      rcases processActive_spec (selectVehicle { s with frameNmr := s.frameNmr + 1 }
          (seleccionarMasCercano inp.tracks)) inp id rec with
        hpa | hpa | ⟨bp, bc, hcb, hne, hfmt, hconf, h7, hpa⟩
      · rw [hpa]
        intro h
        exact absurd h (by simp)
      · rw [hpa]
        intro h
        exact absurd h (by simp)
      · rw [hpa]
        intro h
        rw [Option.some.injEq] at h
        subst h
        refine ⟨hne, hfmt, ⟨lecturasDespues _ inp id, bc, h7, hcb, hconf⟩, ⟨id, ?_⟩⟩
        show inferDirectionFromHistory
          (dictGetD (selectVehicle { s with frameNmr := s.frameNmr + 1 }
            (seleccionarMasCercano inp.tracks)).movementHistory id []) 1 6 10
          = inferDirectionFromHistory (dictGetD s.movementHistory id []) 1 6 10
        rw [selectVehicle_movement]

theorem step_record_clears (s : PipelineState) (inp : FrameInput) (r : Registro) :
    (step s inp).record = some r → (step s inp).state.vehiculoActivoId = none := by
  simp only [step]
  split
  · intro h
    exact absurd h (by simp)
  · rename_i id hacts
    split
    · intro h
      exact absurd h (by simp)
    · rename_i rec hrec
      rcases processActive_spec (selectVehicle { s with frameNmr := s.frameNmr + 1 }
          (seleccionarMasCercano inp.tracks)) inp id rec with
        hpa | hpa | ⟨bp, bc, _, _, _, _, _, hpa⟩
      · rw [hpa]
        intro h
        exact absurd h (by simp)
      · rw [hpa]
        intro h
        exact absurd h (by simp)
      · rw [hpa]
        intro h
        rfl

/-! ## Claim C1 — single active vehicle -/

/-- C1: from the initial state, at most one vehicle ever has tracking
state; a vehicle can be active after a step only if it was already the
active one or nothing was active; and a step that emits a record leaves
the active slot cleared. -/
theorem C1_single_active_vehicle :
    (∀ inputs : List FrameInput, (run initialState inputs).vehiculoEstado.length ≤ 1) ∧
    (∀ (s : PipelineState) (inp : FrameInput) (v : ℕ),
      (step s inp).state.vehiculoActivoId = some v →
      s.vehiculoActivoId = none ∨ s.vehiculoActivoId = some v) ∧
    (∀ (s : PipelineState) (inp : FrameInput) (r : Registro),
      (step s inp).record = some r → (step s inp).state.vehiculoActivoId = none) := by
  refine ⟨?_, ?_, fun s inp r h => step_record_clears s inp r h⟩
  · intro inputs
    rcases run_inv inputs initialState (Or.inl ⟨rfl, rfl⟩) with ⟨-, he⟩ | ⟨id, rec, -, he⟩ <;>
      rw [he] <;> simp
  · intro s inp v h
    have hs : ({ s with frameNmr := s.frameNmr + 1 } : PipelineState).vehiculoActivoId = none ∨
        ({ s with frameNmr := s.frameNmr + 1 } : PipelineState).vehiculoActivoId = some v →
        s.vehiculoActivoId = none ∨ s.vehiculoActivoId = some v := fun x => x
    apply hs
    revert h
    simp only [step]
    split
    · intro h
      exact selectVehicle_activo_some { s with frameNmr := s.frameNmr + 1 } _ v h
    · rename_i id hacts
      split
      · intro h
        exact selectVehicle_activo_some { s with frameNmr := s.frameNmr + 1 } _ v h
      · rename_i rec hrec
        rcases processActive_spec (selectVehicle { s with frameNmr := s.frameNmr + 1 }
            (seleccionarMasCercano inp.tracks)) inp id rec with
          hpa | hpa | ⟨bp, bc, _, _, _, _, _, hpa⟩
        · rw [hpa]
          intro h
          exact selectVehicle_activo_some { s with frameNmr := s.frameNmr + 1 } _ v h
        · rw [hpa]
          intro h
          exact selectVehicle_activo_some { s with frameNmr := s.frameNmr + 1 } _ v h
        · rw [hpa]
          intro h
          exact absurd h (by simp)

def consolState : PipelineState :=
  ⟨5, some 1, [(1, ⟨(0, 0, 10, 10), "desconocido", 2⟩)], [],
   [(1, [("ABC123", 9/10, 1), ("ABC123", 9/10, 2), ("ABC123", 9/10, 3), ("ABC123", 9/10, 4),
         ("ABC123", 9/10, 5), ("ABC123", 9/10, 6), ("ABC123", 9/10, 7)])]⟩

def consolInput : FrameInput := ⟨640, 480, [], [], "T"⟩

def consolRecord : Registro :=
  ⟨"car", "ABC123", "T", "indeterminado", "detecciones_unicas/ABC123_1_6.jpg", 1, 4⟩

def selTrackInput : FrameInput := ⟨640, 480, [(0, 0, 10, 10, 1)], [], "T"⟩

theorem C1_witness :
    (run initialState []).vehiculoEstado.length ≤ 1 ∧
    (initialState.vehiculoActivoId = none ∨ initialState.vehiculoActivoId = some 1) ∧
    (step consolState consolInput).state.vehiculoActivoId = none :=
  ⟨C1_single_active_vehicle.1 [],
   C1_single_active_vehicle.2.1 initialState selTrackInput 1 (by decide),
   C1_single_active_vehicle.2.2 consolState consolInput consolRecord (by decide)⟩

/-! ## Claim C3 — motion samples are never appended (code bug) -/

/-- C3 (code bug): main.py never appends to `movement_history` — starting
from the initial state the motion history stays empty forever, and hence
every emitted record carries direction "indeterminado". -/
theorem C3_motion_history_never_fed :
    (∀ inputs : List FrameInput, (run initialState inputs).movementHistory = []) ∧
    (∀ (s : PipelineState) (inp : FrameInput) (r : Registro), s.movementHistory = [] →
      (step s inp).record = some r → r.direccion = "indeterminado") := by
  constructor
  · intro inputs
    exact run_movement_empty inputs initialState rfl
  · intro s inp r hm h
    obtain ⟨-, -, -, id, hdir⟩ := step_record_facts s inp r h
    rw [hdir, hm]
    rfl

theorem C3_witness :
    (run initialState [consolInput]).movementHistory = [] ∧
    consolRecord.direccion = "indeterminado" :=
  ⟨C3_motion_history_never_fed.1 [consolInput],
   C3_motion_history_never_fed.2 consolState consolInput consolRecord rfl (by decide)⟩

/-! ## Claim C4 — records require a valid consolidated plate -/

/-- C4: a `registros` row is produced only when the consolidated text is
non-empty, passes `license_complies_format`, and its consolidated
confidence is at least the acceptance threshold 0.50. -/
theorem C4_record_requires_valid_plate :
    ∀ (s : PipelineState) (inp : FrameInput) (r : Registro),
      (step s inp).record = some r →
      r.placaFinal ≠ "" ∧ licenseCompliesFormat r.placaFinal = true ∧
      ∃ lect c, 7 ≤ List.length lect ∧
        consolidarBuffer (lect.map (fun x : String × ℚ × ℕ => (x.1, x.2.1)))
          = some (r.placaFinal, c) ∧ (1/2 : ℚ) ≤ c := by
  intro s inp r h
  obtain ⟨h1, h2, h3, -⟩ := step_record_facts s inp r h
  exact ⟨h1, h2, h3⟩

theorem C4_witness :
    consolRecord.placaFinal ≠ "" ∧ licenseCompliesFormat consolRecord.placaFinal = true ∧
    ∃ lect c, 7 ≤ List.length lect ∧
      consolidarBuffer (lect.map (fun x : String × ℚ × ℕ => (x.1, x.2.1)))
        = some (consolRecord.placaFinal, c) ∧ (1/2 : ℚ) ≤ c :=
  C4_record_requires_valid_plate consolState consolInput consolRecord (by decide)

/-! ## Claim C8 — invalid bbox skips the whole frame -/

def badBboxState : PipelineState :=
  ⟨5, some 1, [(1, ⟨(-5, 0, 10, 10), "desconocido", 3⟩)], [], [(1, [])]⟩

/-- C8 counterexample: with an active vehicle whose stored bbox fails
validation, the loop body hits `continue`, so NO output frame is written
for that frame — contradicting the claim that an annotated frame is still
produced. -/
theorem C8_counterexample :
    badBboxState.vehiculoActivoId = some 1 ∧
    bboxInvalida ⟨(-5, 0, 10, 10), "desconocido", 3⟩ 640 480 = true ∧
    (step badBboxState consolInput).frameWritten = false := by
  refine ⟨rfl, by decide, by decide⟩

/-- C8 amended: when the active vehicle's bbox fails validation (or its
crop is empty), the step leaves the whole state unchanged apart from the
frame counter, emits no record, and writes NO output frame (`continue`
skips the drawing and the video write). -/
theorem C8_invalid_bbox_skips_frame :
    ∀ (s : PipelineState) (inp : FrameInput) (id : ℕ) (rec : VehRec),
      s.vehiculoActivoId = some id → dictGet s.vehiculoEstado id = some rec →
      (bboxInvalida rec inp.w inp.h = true ∨ cropSize rec = 0) →
      step s inp = ⟨{ s with frameNmr := s.frameNmr + 1 }, none, false⟩ := by
  intro s inp id rec hact hrec hbad
  rw [step_eq_of_active s inp id rec hact hrec]
  rcases hbad with hbb | hcs
  · simp [processActive, hbb]
  · by_cases hbb : bboxInvalida rec inp.w inp.h = true
    · simp [processActive, hbb]
    · simp [processActive, hbb, hcs]

theorem C8_witness :
    step badBboxState consolInput =
      ⟨{ badBboxState with frameNmr := badBboxState.frameNmr + 1 }, none, false⟩ :=
  C8_invalid_bbox_skips_frame badBboxState consolInput 1
    ⟨(-5, 0, 10, 10), "desconocido", 3⟩ rfl (by decide) (Or.inl (by decide))

/-! ## Claim C5 — consolidation selection rules -/

theorem pyMaxByB_mem (gt : α → α → Bool) :
    ∀ (l : List α) (a : α), pyMaxByB gt a l ∈ a :: l := by
  intro l
  induction l with
  | nil =>
    intro a
    exact List.mem_singleton.mpr rfl
  | cons y ys ih =>
    intro a
    rw [pyMaxByB]
    rcases List.mem_cons.mp (ih (if gt y a then y else a)) with heq | hmem
    · rw [heq]
      by_cases h : gt y a = true <;> simp [h]
    · exact List.mem_cons_of_mem _ (List.mem_cons_of_mem _ hmem)

theorem pyMaxByB_le {α : Type} {K : Type} [LinearOrder K] (key : α → K)
    (gt : α → α → Bool) (hgt : ∀ p q, gt p q = true ↔ key q < key p) :
    ∀ (l : List α) (a x : α), x ∈ a :: l → key x ≤ key (pyMaxByB gt a l) := by
  intro l
  induction l with
  | nil =>
    intro a x hx
    rw [List.mem_singleton.mp hx, pyMaxByB]
  | cons y ys ih =>
    intro a x hx
    rw [pyMaxByB]
    have hstep : key a ≤ key (if gt y a then y else a) ∧
        key y ≤ key (if gt y a then y else a) := by
      by_cases h : gt y a = true
      · rw [if_pos h]
        exact ⟨le_of_lt ((hgt y a).mp h), le_refl _⟩
      · rw [if_neg h]
        exact ⟨le_refl _, le_of_not_lt (fun hlt => h ((hgt y a).mpr hlt))⟩
    rcases List.mem_cons.mp hx with rfl | hx2
    · exact le_trans hstep.1 (ih _ _ (List.mem_cons_self _ _))
    · rcases List.mem_cons.mp hx2 with rfl | hx3
      · exact le_trans hstep.2 (ih _ _ (List.mem_cons_self _ _))
      · exact ih _ _ (List.mem_cons_of_mem _ hx3)

theorem clusterGt_iff (c d : List (String × ℚ)) :
    clusterGt c d = true ↔ clusterScore d < clusterScore c := by
  simp [clusterGt]

theorem itemGt_iff (p q : ℕ × String) :
    itemGt p q = true ↔ toLex q < toLex p := by
  rw [Prod.Lex.lt_iff]
  simp only [itemGt, Bool.or_eq_true, Bool.and_eq_true, decide_eq_true_eq]
  constructor
  · rintro (h | ⟨h1, h2⟩)
    · exact Or.inl h
    · exact Or.inr ⟨h1.symm, h2⟩
  · rintro (h | ⟨h1, h2⟩)
    · exact Or.inl h
    · exact Or.inr ⟨h1.symm, h2⟩

theorem mem_firstDedup (l : List String) (x : String) : x ∈ firstDedup l ↔ x ∈ l := by
  induction l with
  | nil => simp [firstDedup]
  | cons t ts ih =>
    simp only [firstDedup, List.mem_cons, List.mem_filter, decide_eq_true_eq]
    constructor
    · rintro (rfl | ⟨hmem, -⟩)
      · exact Or.inl rfl
      · exact Or.inr (ih.mp hmem)
    · rintro (rfl | hmem)
      · exact Or.inl rfl
      · by_cases hx : x = t
        · exact Or.inl hx
        · exact Or.inr ⟨ih.mpr hmem, hx⟩

theorem addToFirstMatch_ne_nil (p : String × ℚ) :
    ∀ (cs cs₂ : List (List (String × ℚ))), addToFirstMatch p cs = some cs₂ → cs₂ ≠ [] := by
  intro cs
  induction cs with
  | nil =>
    intro cs₂ h
    simp [addToFirstMatch] at h
  | cons c rest ih =>
    intro cs₂ h
    rw [addToFirstMatch] at h
    split at h
    · rw [Option.some.injEq] at h
      subst h
      simp
    · split at h
      · rw [Option.some.injEq] at h
        subst h
        simp
      · exact absurd h (by simp)

theorem insertReading_ne_nil (cs : List (List (String × ℚ))) (p : String × ℚ) :
    insertReading cs p ≠ [] := by
  rw [insertReading]
  split
  · rename_i cs₂ heq
    exact addToFirstMatch_ne_nil p cs cs₂ heq
  · simp

theorem foldl_insertReading_ne_nil (l : List (String × ℚ)) :
    ∀ cs, cs ≠ [] → l.foldl insertReading cs ≠ [] := by
  induction l with
  | nil => exact fun cs h => h
  | cons p rest ih =>
    intro cs h
    rw [List.foldl_cons]
    exact ih _ (insertReading_ne_nil cs p)

theorem buildClusters_ne_nil (l : List (String × ℚ)) (h : l ≠ []) :
    buildClusters l ≠ [] := by
  cases l with
  | nil => exact absurd rfl h
  | cons p rest =>
    rw [buildClusters, List.foldl_cons]
    exact foldl_insertReading_ne_nil rest _ (insertReading_ne_nil [] p)

theorem addToFirstMatch_clusters (p : String × ℚ) :
    ∀ (cs cs₂ : List (List (String × ℚ))), addToFirstMatch p cs = some cs₂ →
      (∀ c ∈ cs, c ≠ []) → ∀ c ∈ cs₂, c ≠ [] := by
  intro cs
  induction cs with
  | nil =>
    intro cs₂ h
    simp [addToFirstMatch] at h
  | cons c rest ih =>
    intro cs₂ h hcs
    rw [addToFirstMatch] at h
    split at h
    · rw [Option.some.injEq] at h
      subst h
      intro d hd
      rcases List.mem_cons.mp hd with rfl | hd2
      · simp
      · exact hcs d (List.mem_cons_of_mem _ hd2)
    · split at h
      · rename_i cs₃ heq
        rw [Option.some.injEq] at h
        subst h
        intro d hd
        rcases List.mem_cons.mp hd with rfl | hd2
        · exact hcs d (List.mem_cons_self _ _)
        · exact ih cs₃ heq (fun e he => hcs e (List.mem_cons_of_mem _ he)) d hd2
      · exact absurd h (by simp)

theorem insertReading_clusters (cs : List (List (String × ℚ))) (p : String × ℚ)
    (hcs : ∀ c ∈ cs, c ≠ []) : ∀ c ∈ insertReading cs p, c ≠ [] := by
  rw [insertReading]
  split
  · rename_i cs₂ heq
    exact addToFirstMatch_clusters p cs cs₂ heq hcs
  · intro c hc
    rcases List.mem_append.mp hc with h1 | h2
    · exact hcs c h1
    · rw [List.mem_singleton.mp h2]
      simp

theorem buildClusters_clusters (l : List (String × ℚ)) : ∀ c ∈ buildClusters l, c ≠ [] := by
  have haux : ∀ (l₂ : List (String × ℚ)) (cs : List (List (String × ℚ))),
      (∀ c ∈ cs, c ≠ []) → ∀ c ∈ l₂.foldl insertReading cs, c ≠ [] := by
    intro l₂
    induction l₂ with
    | nil => exact fun cs h => h
    | cons p rest ih =>
      intro cs h
      rw [List.foldl_cons]
      exact ih _ (insertReading_clusters cs p h)
  exact haux l [] (by simp)

theorem consolidarBuffer_eq (buffer : List (String × ℚ)) (hne : normalizedOf buffer ≠ [])
    (c : List (String × ℚ)) (cs : List (List (String × ℚ)))
    (hc : buildClusters (normalizedOf buffer) = c :: cs)
    (i : ℕ × String) (is : List (ℕ × String))
    (hi : (firstDedup ((pyMaxByB clusterGt c cs).map Prod.fst)).map
        (fun t => (countOcc t ((pyMaxByB clusterGt c cs).map Prod.fst), t)) = i :: is) :
    consolidarBuffer buffer =
      some ((pyMaxByB itemGt i is).2,
        (((pyMaxByB clusterGt c cs).filter
            (fun p => p.1 = (pyMaxByB itemGt i is).2)).map Prod.snd).sum /
        ((((pyMaxByB clusterGt c cs).filter
            (fun p => p.1 = (pyMaxByB itemGt i is).2)).map Prod.snd).length : ℚ)) := by
  cases buffer with
  | nil => exact absurd rfl hne
  | cons b bs =>
    simp only [consolidarBuffer]
    split
    · rename_i heq
      exact absurd heq hne
    · split
      · rename_i heq2
        rw [hc] at heq2
        exact absurd heq2 (by simp)
      · rename_i c₂ cs₂ heq2
        rw [hc] at heq2
        obtain ⟨rfl, rfl⟩ : c = c₂ ∧ cs = cs₂ := by
          rw [List.cons.injEq] at heq2
          exact ⟨heq2.1, heq2.2⟩
        split
        · rename_i heq3
          rw [hi] at heq3
          exact absurd heq3 (by simp)
        · rename_i i₂ is₂ heq3
          rw [hi] at heq3
          obtain ⟨rfl, rfl⟩ : i = i₂ ∧ is = is₂ := by
            rw [List.cons.injEq] at heq3
            exact ⟨heq3.1, heq3.2⟩
          split <;> rfl

/-- C5: on any buffer whose normalization is non-empty, `consolidar_buffer`
returns the majority exact string of a cluster of maximal score
`sum(conf) + 0.2·size` — ties in frequency resolved toward the
lexicographically greatest string — with confidence the mean of that exact
string's confidences inside the winning cluster. -/
theorem C5_consolidation_selection :
    ∀ buffer : List (String × ℚ), normalizedOf buffer ≠ [] →
      ∃ best ∈ buildClusters (normalizedOf buffer),
        (∀ c ∈ buildClusters (normalizedOf buffer), clusterScore c ≤ clusterScore best) ∧
        ∃ bt conf, consolidarBuffer buffer = some (bt, conf) ∧
          bt ∈ best.map Prod.fst ∧
          (∀ t ∈ best.map Prod.fst,
            countOcc t (best.map Prod.fst) < countOcc bt (best.map Prod.fst) ∨
            (countOcc t (best.map Prod.fst) = countOcc bt (best.map Prod.fst) ∧ t ≤ bt)) ∧
          conf = ((best.filter (fun p => p.1 = bt)).map Prod.snd).sum /
                 (((best.filter (fun p => p.1 = bt)).map Prod.snd).length : ℚ) := by
  intro buffer hne
  obtain ⟨c, cs, hcl⟩ : ∃ c cs, buildClusters (normalizedOf buffer) = c :: cs := by
    rcases hx : buildClusters (normalizedOf buffer) with _ | ⟨a, b⟩
    · exact absurd hx (buildClusters_ne_nil _ hne)
    · exact ⟨a, b, rfl⟩
  rw [hcl]
  refine ⟨pyMaxByB clusterGt c cs, pyMaxByB_mem clusterGt cs c, ?_, ?_⟩
  · intro c₂ hc₂
    exact pyMaxByB_le clusterScore clusterGt clusterGt_iff cs c c₂ hc₂
  · have hbne : pyMaxByB clusterGt c cs ≠ [] :=
      buildClusters_clusters _ _ (hcl ▸ pyMaxByB_mem clusterGt cs c)
    obtain ⟨t₀, ts₀, hts⟩ : ∃ t₀ ts₀,
        (pyMaxByB clusterGt c cs).map Prod.fst = t₀ :: ts₀ := by
      rcases hx : (pyMaxByB clusterGt c cs).map Prod.fst with _ | ⟨a, b⟩
      · exact absurd (List.map_eq_nil_iff.mp hx) hbne
      · exact ⟨a, b, rfl⟩
    have hdd : firstDedup ((pyMaxByB clusterGt c cs).map Prod.fst) =
        t₀ :: (firstDedup ts₀).filter (fun u => u ≠ t₀) := by
      rw [hts, firstDedup]
    have hi : (firstDedup ((pyMaxByB clusterGt c cs).map Prod.fst)).map
        (fun t => (countOcc t ((pyMaxByB clusterGt c cs).map Prod.fst), t)) =
        (countOcc t₀ ((pyMaxByB clusterGt c cs).map Prod.fst), t₀) ::
          ((firstDedup ts₀).filter (fun u => u ≠ t₀)).map
            (fun t => (countOcc t ((pyMaxByB clusterGt c cs).map Prod.fst), t)) := by
      rw [hdd, List.map_cons]
    have hcb := consolidarBuffer_eq buffer hne c cs hcl _ _ hi
    set bestItem := pyMaxByB itemGt
      (countOcc t₀ ((pyMaxByB clusterGt c cs).map Prod.fst), t₀)
      (((firstDedup ts₀).filter (fun u => u ≠ t₀)).map
        (fun t => (countOcc t ((pyMaxByB clusterGt c cs).map Prod.fst), t))) with hbi
    have hbimem : bestItem ∈ (firstDedup ((pyMaxByB clusterGt c cs).map Prod.fst)).map
        (fun t => (countOcc t ((pyMaxByB clusterGt c cs).map Prod.fst), t)) := by
      rw [hi]
      exact pyMaxByB_mem itemGt _ _
    obtain ⟨tb, htbmem, htbeq⟩ := List.mem_map.mp hbimem
    have hfst : bestItem.1 = countOcc bestItem.2
        ((pyMaxByB clusterGt c cs).map Prod.fst) := by
      rw [← htbeq]
    refine ⟨bestItem.2, _, hcb, ?_, ?_, rfl⟩
    · rw [← htbeq]
      exact (mem_firstDedup _ tb).mp htbmem
    · intro t htmem
      have htitem : (countOcc t ((pyMaxByB clusterGt c cs).map Prod.fst), t) ∈
          (firstDedup ((pyMaxByB clusterGt c cs).map Prod.fst)).map
            (fun t => (countOcc t ((pyMaxByB clusterGt c cs).map Prod.fst), t)) :=
        List.mem_map_of_mem _ ((mem_firstDedup _ t).mpr htmem)
      rw [hi] at htitem
      have hle := pyMaxByB_le (fun x : ℕ × String => toLex x) itemGt itemGt_iff
        _ _ _ htitem
      rw [Prod.Lex.le_iff] at hle
      rcases hle with hlt | ⟨heq, hle2⟩
      · left
        rw [← hfst]
        exact hlt
      · right
        rw [← hfst]
        exact ⟨heq, hle2⟩

theorem C5_witness :
    ∃ best ∈ buildClusters (normalizedOf exampleBuffer),
      (∀ c ∈ buildClusters (normalizedOf exampleBuffer), clusterScore c ≤ clusterScore best) ∧
      ∃ bt conf, consolidarBuffer exampleBuffer = some (bt, conf) ∧
        bt ∈ best.map Prod.fst ∧
        (∀ t ∈ best.map Prod.fst,
          countOcc t (best.map Prod.fst) < countOcc bt (best.map Prod.fst) ∨
          (countOcc t (best.map Prod.fst) = countOcc bt (best.map Prod.fst) ∧ t ≤ bt)) ∧
        conf = ((best.filter (fun p => p.1 = bt)).map Prod.snd).sum /
               (((best.filter (fun p => p.1 = bt)).map Prod.snd).length : ℚ) :=
  C5_consolidation_selection exampleBuffer (by decide)

end ParkingLot
